import Mathlib

/-!
Verification of the archive-model reconciliation scripts
(`scripts/pulse_archive.py`, `scripts/pull_seeds_to_hub.py`) against their
natural-language specification.

The Python scripts operate on YAML documents loaded by `yaml.safe_load`:
nested values built from null, booleans, integers, strings, lists and
insertion-ordered string-keyed mappings (floats do not occur in any claim and
are omitted).  A *record* is a Python `Dict[str, Any]`, modelled as an
insertion-ordered association list from field names to values.
-/

/-- A YAML value as produced by `yaml.safe_load`: scalars, sequences and
insertion-ordered mappings with string keys. -/
inductive Yaml where
  | null : Yaml
  | bool (b : Bool) : Yaml
  | int (n : Int) : Yaml
  | str (s : String) : Yaml
  | seq (xs : List Yaml) : Yaml
  | map (kvs : List (String × Yaml)) : Yaml
deriving Repr

/-- A record: a Python `Dict[str, Any]` with string field names, in insertion
order. -/
abbrev Record := List (String × Yaml)

mutual

/-- Structural equality test on `Yaml` values (Lean cannot derive
`DecidableEq` for this nested inductive automatically). -/
def Yaml.beq : Yaml → Yaml → Bool
  | .null, .null => true
  | .bool a, .bool b => a == b
  | .int a, .int b => a == b
  | .str a, .str b => a == b
  | .seq xs, .seq ys => Yaml.beqList xs ys
  | .map xs, .map ys => Yaml.beqKvs xs ys
  | _, _ => false

def Yaml.beqList : List Yaml → List Yaml → Bool
  | [], [] => true
  | x :: xs, y :: ys => Yaml.beq x y && Yaml.beqList xs ys
  | _, _ => false

def Yaml.beqKvs : List (String × Yaml) → List (String × Yaml) → Bool
  | [], [] => true
  | (k, v) :: xs, (l, w) :: ys => k == l && Yaml.beq v w && Yaml.beqKvs xs ys
  | _, _ => false

end

mutual

theorem Yaml.beq_iff_eq : ∀ a b : Yaml, Yaml.beq a b = true ↔ a = b
  | .null, .null => by simp [Yaml.beq]
  | .null, .bool _ | .null, .int _ | .null, .str _ | .null, .seq _ | .null, .map _ => by
      simp [Yaml.beq]
  | .bool _, .null | .bool _, .int _ | .bool _, .str _ | .bool _, .seq _ | .bool _, .map _ => by
      simp [Yaml.beq]
  | .int _, .null | .int _, .bool _ | .int _, .str _ | .int _, .seq _ | .int _, .map _ => by
      simp [Yaml.beq]
  | .str _, .null | .str _, .bool _ | .str _, .int _ | .str _, .seq _ | .str _, .map _ => by
      simp [Yaml.beq]
  | .seq _, .null | .seq _, .bool _ | .seq _, .int _ | .seq _, .str _ | .seq _, .map _ => by
      simp [Yaml.beq]
  | .map _, .null | .map _, .bool _ | .map _, .int _ | .map _, .str _ | .map _, .seq _ => by
      simp [Yaml.beq]
  | .bool a, .bool b => by simp [Yaml.beq]
  | .int a, .int b => by simp [Yaml.beq]
  | .str a, .str b => by simp [Yaml.beq]
  | .seq xs, .seq ys => by
      simp only [Yaml.beq, Yaml.beqList_iff_eq xs ys, Yaml.seq.injEq]
  | .map xs, .map ys => by
      simp only [Yaml.beq, Yaml.beqKvs_iff_eq xs ys, Yaml.map.injEq]

theorem Yaml.beqList_iff_eq : ∀ xs ys : List Yaml, Yaml.beqList xs ys = true ↔ xs = ys
  | [], [] => by simp [Yaml.beqList]
  | [], _ :: _ => by simp [Yaml.beqList]
  | _ :: _, [] => by simp [Yaml.beqList]
  | x :: xs, y :: ys => by
      simp [Yaml.beqList, Yaml.beq_iff_eq x y, Yaml.beqList_iff_eq xs ys]

theorem Yaml.beqKvs_iff_eq :
    ∀ xs ys : List (String × Yaml), Yaml.beqKvs xs ys = true ↔ xs = ys
  | [], [] => by simp [Yaml.beqKvs]
  | [], _ :: _ => by simp [Yaml.beqKvs]
  | _ :: _, [] => by simp [Yaml.beqKvs]
  | (k, v) :: xs, (l, w) :: ys => by
      simp [Yaml.beqKvs, Yaml.beq_iff_eq v w, Yaml.beqKvs_iff_eq xs ys, and_assoc]

end

instance : DecidableEq Yaml := fun a b =>
  decidable_of_iff (Yaml.beq a b = true) (Yaml.beq_iff_eq a b)

/-- Field membership in a record: Python's `"key" in rec`. -/
def hasField (rec : Record) (f : String) : Bool :=
  (rec.lookup f).isSome

/-- The canonical-key condition tested inline at `dedupe_records` line 132:
`"key" in rec and isinstance(rec["key"], str) and rec["key"]` — the `key`
field must be present, be a string, and be non-empty (Python truthiness of a
string).  Returns that string when the condition holds. -/
def canonicalKey (rec : Record) : Option String :=
  match rec.lookup "key" with
  | some (Yaml.str s) => if s = "" then none else some s
  | _ => none

/-- Lexicographic code-point comparison of character lists: Python's string
ordering, used by `sorted`/`sort_keys`. -/
def charListLe : List Char → List Char → Bool
  | [], _ => true
  | _ :: _, [] => false
  | a :: as, b :: bs =>
    if a.val < b.val then true
    else if b.val < a.val then false
    else charListLe as bs

/-- Python's `s1 <= s2` on strings: code-point lexicographic order. -/
def strLe (a b : String) : Bool :=
  charListLe a.data b.data

/-- Insert a key-value pair into a key-sorted association list (ordering by
Python's code-point string comparison). -/
def insertByKey (p : String × Yaml) : List (String × Yaml) → List (String × Yaml)
  | [] => [p]
  | q :: rest => if strLe p.1 q.1 then p :: q :: rest else q :: insertByKey p rest

/-- Sort an association list by key. -/
def sortByKey (kvs : List (String × Yaml)) : List (String × Yaml) :=
  kvs.foldr insertByKey []

mutual

/-- Recursively sort every mapping in a `Yaml` value by key.  Models the
output of `json.dumps(·, sort_keys=True, ensure_ascii=False)`: the dumped
strings of two values are equal exactly when their recursively key-sorted
forms are equal, because the serializer is injective on distinct sorted
values. -/
def canon : Yaml → Yaml
  | .null => .null
  | .bool b => .bool b
  | .int n => .int n
  | .str s => .str s
  | .seq xs => .seq (canonList xs)
  | .map kvs => .map (sortByKey (canonKvs kvs))

def canonList : List Yaml → List Yaml
  | [] => []
  | x :: xs => canon x :: canonList xs

def canonKvs : List (String × Yaml) → List (String × Yaml)
  | [] => []
  | (k, v) :: rest => (k, canon v) :: canonKvs rest

end

/-- The content fingerprint used for records without a canonical key:
`json.dumps(rec, sort_keys=True, ensure_ascii=False)` at `dedupe_records`
line 139, modelled as the recursively key-sorted value (see `canon`). -/
def sortedFingerprint (rec : Record) : Yaml :=
  canon (Yaml.map rec)

/-- The loop of `dedupe_records` (lines 129-143): two visited sets, one of
canonical keys (`seen_key`) and one of content fingerprints (`seen_blob`);
records are processed in arrival order and appended to the output exactly
when they are fresh in their space.  (The defensive `isinstance(rec, dict)`
wrap at line 130 is unreachable here because the input type is already
`Iterable[Dict[str, Any]]`.) -/
def dedupeAux : List Record → List String → List Yaml → List Record
  | [], _, _ => []
  | rec :: rest, seenKey, seenBlob =>
    match canonicalKey rec with
    | some k =>
      if k ∈ seenKey then dedupeAux rest seenKey seenBlob
      else rec :: dedupeAux rest (k :: seenKey) seenBlob
    | none =>
      if sortedFingerprint rec ∈ seenBlob then dedupeAux rest seenKey seenBlob
      else rec :: dedupeAux rest seenKey (sortedFingerprint rec :: seenBlob)

/-- `dedupe_records` (pulse_archive.py lines 124-144). -/
def dedupe_records (records : List Record) : List Record :=
  dedupeAux records [] []

/-- Python's `dict.setdefault(f, v)`: leave the dict unchanged when the field
is present, otherwise append the field at the end (insertion order). -/
def setdefault (d : Record) (f : String) (v : Yaml) : Record :=
  if hasField d f then d else d ++ [(f, v)]

/-- One element of the list branch of `fetch_yaml` (line 108):
`x if isinstance(x, dict) else {"value": x}`. -/
def wrapElem (x : Yaml) : Record :=
  match x with
  | Yaml.map kvs => kvs
  | _ => [("value", x)]

/-- The normalization part of `fetch_yaml` (pulse_archive.py lines 104-121),
applied to the value `data` returned by `yaml.safe_load`:
`None` → empty list; list → elements wrapped when not dicts; mapping → one
record per top-level pair, built by `dict(v); d.setdefault("key", k)` for dict
values and `{"key": k, "value": v}` otherwise, appended in iteration order;
any other scalar → a single wrapped record. -/
def normalizeData (data : Yaml) : List Record :=
  match data with
  | Yaml.null => []
  | Yaml.seq xs => xs.map wrapElem
  | Yaml.map kvs =>
      kvs.foldl (fun out kv =>
        match kv.2 with
        | Yaml.map v => out ++ [setdefault v "key" (Yaml.str kv.1)]
        | _ => out ++ [[("key", Yaml.str kv.1), ("value", kv.2)]]) []
  | x => [[("value", x)]]

/-- The raw text of an HTTP response body, as seen by `fetch_yaml`:
either `text.strip()` is falsy (blank), or `yaml.safe_load(text)` succeeds
with a value, or `yaml.safe_load(text)` raises a parse error. -/
inductive RawText where
  | blank : RawText
  | parses (v : Yaml) : RawText
  | malformed : RawText
deriving DecidableEq, Repr

/-- What `fetch_yaml` can raise: the explicit
`RuntimeError(f"GET \x7burl\x7d -> \x7bstatus\x7d")` on a non-200 status
(line 100), or a propagated `yaml.YAMLError` from `yaml.safe_load`. -/
inductive FetchError where
  | badStatus (status : Nat) : FetchError
  | parseError : FetchError
deriving DecidableEq, Repr

/-- `fetch_yaml` (pulse_archive.py lines 96-121), given the status code and
body of the single HTTP response it performs: raises on a non-200 status,
treats a blank body as the empty list (`data = [] `), propagates parse
errors, and otherwise normalizes the parsed value. -/
def fetch_yaml (status : Nat) (t : RawText) : Except FetchError (List Record) :=
  if status ≠ 200 then Except.error (FetchError.badStatus status)
  else
    match t with
    | RawText.blank => Except.ok (normalizeData (Yaml.seq []))
    | RawText.malformed => Except.error FetchError.parseError
    | RawText.parses v => Except.ok (normalizeData v)

/-- `fetch_raw` (pull_seeds_to_hub.py lines 9-14), given the status code and
body of the single HTTP response it performs: returns the body on 200 and
`None` on any other status; it never raises on a non-success status and
performs no second request. -/
def fetch_raw (status : Nat) (text : String) : Option String :=
  if status = 200 then some text else none

/-! ### Filesystem model for `write_yaml_local`

The script writes to paths taken verbatim from the `/tree/<branch>/<path>`
suffix of a GitHub URL, i.e. relative POSIX paths.  The filesystem is the set
of directories that exist, the mapping from file paths to the (logical)
record lists last dumped into them, and a count of physical writes
performed. -/

/-- `os.path.dirname` on the relative POSIX paths the script uses (the
`<path>` suffix of a `/tree/<branch>/<path>` URL): everything before the last
`/`, or the empty string when there is no `/`. -/
def dirname (p : String) : String :=
  match p.data.reverse.dropWhile (fun c => c ≠ '/') with
  | [] => ""
  | _ :: rest => String.mk rest.reverse

/-- Errors raised by the filesystem model.  `os.makedirs("", exist_ok=True)`
raises `FileNotFoundError` in Python (the final `mkdir("")` fails and the
empty path is not a directory), as does opening a file in a directory that
does not exist. -/
inductive FsError where
  | fileNotFound : FsError
deriving DecidableEq, Repr

/-- The filesystem state: existing directories, file contents (logical: the
record list last dumped), and the number of physical writes performed so
far. -/
structure FS where
  dirs : List String
  files : List (String × List Record)
  writes : Nat
deriving DecidableEq, Repr

/-- `os.makedirs(d, exist_ok=True)`: raises `FileNotFoundError` on the empty
path; otherwise ensures the directory exists (never failing when it already
does). -/
def makedirs (d : String) (fs : FS) : Except FsError FS :=
  if d = "" then Except.error FsError.fileNotFound
  else Except.ok { fs with dirs := if d ∈ fs.dirs then fs.dirs else d :: fs.dirs }

/-- Replace or append a file's contents. -/
def setFile (p : String) (recs : List Record) :
    List (String × List Record) → List (String × List Record)
  | [] => [(p, recs)]
  | (q, c) :: rest =>
      if q = p then (p, recs) :: rest else (q, c) :: setFile p recs rest

/-- `open(path, "w", ...)` followed by `yaml.safe_dump(records, f, ...)`
(pulse_archive.py lines 149-150): one physical write, requiring the parent
directory to exist (a path without a directory component is written into the
working directory). -/
def openWriteDump (p : String) (recs : List Record) (fs : FS) : Except FsError FS :=
  if dirname p = "" ∨ dirname p ∈ fs.dirs then
    Except.ok { fs with files := setFile p recs fs.files, writes := fs.writes + 1 }
  else Except.error FsError.fileNotFound

/-- `write_yaml_local` (pulse_archive.py lines 147-151):
`os.makedirs(os.path.dirname(path), exist_ok=True)` and then an unconditional
open-and-dump.  The prior contents of the file are never read or compared. -/
def write_yaml_local (path : String) (records : List Record) (fs : FS) :
    Except FsError FS :=
  (makedirs (dirname path) fs).bind (openWriteDump path records)

/-! ### Reference definitions following the spec's description

The spec describes the deduplicator as maintaining "two disjoint visited-sets"
whose uniqueness spaces are independent.  The two single-space passes below
follow that description: each consults only its own space and passes records
of the other kind through untouched.  They are compared against
`dedupe_records` (the source transcription) in the independence theorem. -/

/-- First-write-wins over canonical keys only; keyless records pass through
untouched. -/
def specDedupeKeyed : List Record → List String → List Record
  | [], _ => []
  | r :: rest, seen =>
    match canonicalKey r with
    | some k =>
      if k ∈ seen then specDedupeKeyed rest seen
      else r :: specDedupeKeyed rest (k :: seen)
    | none => r :: specDedupeKeyed rest seen

/-- First-write-wins over content fingerprints only; keyed records pass
through untouched. -/
def specDedupeKeyless : List Record → List Yaml → List Record
  | [], _ => []
  | r :: rest, seen =>
    match canonicalKey r with
    | some _ => r :: specDedupeKeyless rest seen
    | none =>
      if sortedFingerprint r ∈ seen then specDedupeKeyless rest seen
      else r :: specDedupeKeyless rest (sortedFingerprint r :: seen)

/-! ### Concrete sample data used by counterexamples and witnesses -/

/-- A record with canonical key `"a"` and payload 1. -/
def rA : Record := [("key", Yaml.str "a"), ("x", Yaml.int 1)]

/-- A record with canonical key `"a"` and payload 2 (same key, different
content). -/
def rB : Record := [("key", Yaml.str "a"), ("x", Yaml.int 2)]

/-- A record with an `id` field but no `key` field, payload 1. -/
def rId1 : Record := [("id", Yaml.str "a"), ("x", Yaml.int 1)]

/-- A record with the same `id` but different content. -/
def rId2 : Record := [("id", Yaml.str "a"), ("x", Yaml.int 2)]

/-- A keyless record, payload 1. -/
def rN1 : Record := [("x", Yaml.int 1)]

/-- A keyless record, payload 2. -/
def rN2 : Record := [("x", Yaml.int 2)]

/-- An empty filesystem. -/
def fsEmpty : FS := { dirs := [], files := [], writes := 0 }

/-- A filesystem whose persisted artifact at `out/a.yml` already equals the
object about to be written. -/
def fsPrior : FS := { dirs := ["out"], files := [("out/a.yml", [rN1])], writes := 0 }

/-! ## Helper lemmas -/

/-- The mapping branch of `normalizeData` builds its output by appending one
record per top-level pair, so it is the elementwise image of the pairs. -/
theorem normalizeData_map_foldl (kvs : List (String × Yaml)) (out : List Record) :
    kvs.foldl (fun out kv =>
        match kv.2 with
        | Yaml.map v => out ++ [setdefault v "key" (Yaml.str kv.1)]
        | _ => out ++ [[("key", Yaml.str kv.1), ("value", kv.2)]]) out
      = out ++ kvs.map (fun kv =>
        match kv.2 with
        | Yaml.map v => setdefault v "key" (Yaml.str kv.1)
        | _ => [("key", Yaml.str kv.1), ("value", kv.2)]) := by
  induction kvs generalizing out with
  | nil => simp
  | cons kv rest ih =>
    obtain ⟨k, v⟩ := kv
    cases v <;> simp [List.foldl_cons, ih]

/-! ## Claim theorems -/

/-- Claim C6: normalizing a document that parses to a mapping produces, in
the mapping's declared iteration order, for every top-level key `k` with
mapping value `v` the record `v` with `key` defaulted to `k` only if `v`
lacks its own `key` field (an inner `key` is preserved unchanged), and for
every key `k` with non-mapping value `v` the record
`\x7bkey: k, value: v\x7d`. -/
theorem normalize_mapping_defaults_key (kvs : List (String × Yaml)) :
    normalizeData (Yaml.map kvs) = kvs.map (fun kv =>
      match kv.2 with
      | Yaml.map d => if hasField d "key" then d else d ++ [("key", Yaml.str kv.1)]
      | v => [("key", Yaml.str kv.1), ("value", v)]) := by
  show kvs.foldl _ [] = _
  rw [normalizeData_map_foldl kvs []]
  simp only [List.nil_append]
  apply List.map_congr_left
  intro kv _
  obtain ⟨k, v⟩ := kv
  cases v <;> simp [setdefault]

/-- Claim C7: normalizing an empty raw text, or a raw text that parses to a
null value, returns an empty sequence of records rather than an error. -/
theorem normalize_empty_or_null_is_empty :
    fetch_yaml 200 RawText.blank = Except.ok ([] : List Record) ∧
    fetch_yaml 200 (RawText.parses Yaml.null) = Except.ok ([] : List Record) :=
  ⟨rfl, rfl⟩

/-- Claim C8, counterexample: `fetch_yaml` — one of the two fetch operations
the claim covers — raises (`RuntimeError`) on a 404 status instead of
yielding the absent result, refuting "never throws on a missing path or
non-success status". -/
theorem fetch_yaml_raises_on_404 :
    fetch_yaml 404 (RawText.parses Yaml.null)
      = Except.error (FetchError.badStatus 404) := rfl

/-- Claim C8, amended: `fetch_raw` yields the absent result (`None`) on every
non-200 status and performs no retry, while `fetch_yaml` raises an exception
recording the status on every non-200 status (its caller catches it and skips
the source). -/
theorem fetch_raw_absent_fetch_yaml_raises :
    (∀ (status : Nat) (text : String), status ≠ 200 → fetch_raw status text = none) ∧
    (∀ (status : Nat) (t : RawText), status ≠ 200 →
        fetch_yaml status t = Except.error (FetchError.badStatus status)) := by
  constructor
  · intro s t h
    simp [fetch_raw, h]
  · intro s t h
    simp [fetch_yaml, h]

/-- Witness for the amended C8 theorem at status 404. -/
theorem fetch_raw_absent_fetch_yaml_raises_witness :
    (404 : Nat) ≠ 200 ∧ fetch_raw 404 "x" = none ∧
    fetch_yaml 404 RawText.blank = Except.error (FetchError.badStatus 404) :=
  ⟨by decide, fetch_raw_absent_fetch_yaml_raises.1 404 "x" (by decide),
   fetch_raw_absent_fetch_yaml_raises.2 404 RawText.blank (by decide)⟩

/-- Appending a keyed record whose canonical key was already seen (either in
the initial visited-set or on some record of the list) does not change the
deduplicator's output: the visited key-set only grows during processing. -/
theorem dedupeAux_append_drop (r : Record) (k : String) (hr : canonicalKey r = some k)
    (rs : List Record) :
    ∀ (sk : List String) (sb : List Yaml),
      (k ∈ sk ∨ ∃ r' ∈ rs, canonicalKey r' = some k) →
      dedupeAux (rs ++ [r]) sk sb = dedupeAux rs sk sb := by
  induction rs with
  | nil =>
    intro sk sb h
    rcases h with h | ⟨r', hr', _⟩
    · simp [dedupeAux, hr, h]
    · exact absurd hr' (List.not_mem_nil r')
  | cons rec rest ih =>
    intro sk sb h
    have step : ∀ sk' : List String, sk ⊆ sk' →
        (k ∈ sk' ∨ ∃ r' ∈ rest, canonicalKey r' = some k) ∨ canonicalKey rec = some k := by
      intro sk' hsub
      rcases h with h | ⟨r', hr', hkey⟩
      · exact Or.inl (Or.inl (hsub h))
      · rcases List.mem_cons.mp hr' with rfl | hmem
        · exact Or.inr hkey
        · exact Or.inl (Or.inr ⟨r', hmem, hkey⟩)
    cases hck : canonicalKey rec with
    | some k' =>
      by_cases hk : k' ∈ sk
      · simp only [List.cons_append, dedupeAux, hck, if_pos hk]
        apply ih
        rcases step sk (fun _ hx => hx) with h' | h'
        · exact h'
        · rw [hck] at h'
          injection h' with e
          exact Or.inl (e ▸ hk)
      · simp only [List.cons_append, dedupeAux, hck, if_neg hk]
        congr 1
        apply ih
        rcases step (k' :: sk) (List.subset_cons_self k' sk) with h' | h'
        · exact h'
        · rw [hck] at h'
          injection h' with e
          exact Or.inl (e ▸ List.mem_cons_self k' sk)
    | none =>
      have hnotrec : k ∈ sk ∨ ∃ r' ∈ rest, canonicalKey r' = some k := by
        rcases step sk (fun _ hx => hx) with h' | h'
        · exact h'
        · rw [hck] at h'
          exact absurd h' (by simp)
      by_cases hb : sortedFingerprint rec ∈ sb
      · simp only [List.cons_append, dedupeAux, hck, if_pos hb]
        exact ih sk sb hnotrec
      · simp only [List.cons_append, dedupeAux, hck, if_neg hb]
        congr 1
        exact ih sk (sortedFingerprint rec :: sb) hnotrec

/-- Claim C2: deduplication is first-write-wins and order-sensitive.  For
two records sharing a canonical key but with different content,
`dedupe([r1, r2]) = [r1]` and `dedupe([r2, r1]) = [r2]`; moreover a later
occurrence of the key is dropped no matter what arrives in between. -/
theorem dedupe_first_write_wins (r1 r2 : Record) (k : String)
    (h1 : canonicalKey r1 = some k) (h2 : canonicalKey r2 = some k)
    (_hne : r1 ≠ r2) :
    dedupe_records [r1, r2] = [r1] ∧ dedupe_records [r2, r1] = [r2] ∧
    ∀ mid : List Record,
      dedupe_records (r1 :: mid ++ [r2]) = dedupe_records (r1 :: mid) := by
  refine ⟨?_, ?_, ?_⟩
  · simp [dedupe_records, dedupeAux, h1, h2]
  · simp [dedupe_records, dedupeAux, h1, h2]
  · intro mid
    simp only [dedupe_records, List.cons_append, dedupeAux, h1,
      List.not_mem_nil, if_false]
    congr 1
    exact dedupeAux_append_drop r2 k h2 mid [k] []
      (Or.inl (List.mem_cons_self k []))

/-- Witness for the C2 theorem on records `rA`, `rB` sharing key `"a"`. -/
theorem dedupe_first_write_wins_witness :
    dedupe_records [rA, rB] = [rA] ∧ dedupe_records [rB, rA] = [rB] :=
  ⟨(dedupe_first_write_wins rA rB "a" (by decide) (by decide) (by decide)).1,
   (dedupe_first_write_wins rA rB "a" (by decide) (by decide) (by decide)).2.1⟩

/-- Running the deduplication loop a second time from the same visited-sets
changes nothing: every record it kept is fresh with respect to them. -/
theorem dedupeAux_idem (rs : List Record) :
    ∀ (sk : List String) (sb : List Yaml),
      dedupeAux (dedupeAux rs sk sb) sk sb = dedupeAux rs sk sb := by
  induction rs with
  | nil => intro sk sb; rfl
  | cons rec rest ih =>
    intro sk sb
    cases hck : canonicalKey rec with
    | some k =>
      by_cases hk : k ∈ sk
      · simp [dedupeAux, hck, hk, ih]
      · simp [dedupeAux, hck, hk, ih]
    | none =>
      by_cases hb : sortedFingerprint rec ∈ sb
      · simp [dedupeAux, hck, hb, ih]
      · simp [dedupeAux, hck, hb, ih]

/-- Claim C5: deduplication is idempotent —
`dedupe(dedupe(X)) = dedupe(X)` for every input sequence `X`. -/
theorem dedupe_idempotent (rs : List Record) :
    dedupe_records (dedupe_records rs) = dedupe_records rs :=
  dedupeAux_idem rs [] []

/-- The deduplicator equals the keyed-only pass followed by the keyless-only
pass (generalized over both visited-sets). -/
theorem specKeyless_keyed_eq_dedupeAux (rs : List Record) :
    ∀ (sk : List String) (sb : List Yaml),
      specDedupeKeyless (specDedupeKeyed rs sk) sb = dedupeAux rs sk sb := by
  induction rs with
  | nil => intro sk sb; rfl
  | cons rec rest ih =>
    intro sk sb
    cases hck : canonicalKey rec with
    | some k =>
      by_cases hk : k ∈ sk
      · simp [specDedupeKeyed, specDedupeKeyless, dedupeAux, hck, hk, ih]
      · simp [specDedupeKeyed, specDedupeKeyless, dedupeAux, hck, hk, ih]
    | none =>
      by_cases hb : sortedFingerprint rec ∈ sb
      · simp [specDedupeKeyed, specDedupeKeyless, dedupeAux, hck, hb, ih]
      · simp [specDedupeKeyed, specDedupeKeyless, dedupeAux, hck, hb, ih]

/-- The deduplicator equals the keyless-only pass followed by the keyed-only
pass (generalized over both visited-sets). -/
theorem specKeyed_keyless_eq_dedupeAux (rs : List Record) :
    ∀ (sk : List String) (sb : List Yaml),
      specDedupeKeyed (specDedupeKeyless rs sb) sk = dedupeAux rs sk sb := by
  induction rs with
  | nil => intro sk sb; rfl
  | cons rec rest ih =>
    intro sk sb
    cases hck : canonicalKey rec with
    | some k =>
      by_cases hk : k ∈ sk
      · simp [specDedupeKeyed, specDedupeKeyless, dedupeAux, hck, hk, ih]
      · simp [specDedupeKeyed, specDedupeKeyless, dedupeAux, hck, hk, ih]
    | none =>
      by_cases hb : sortedFingerprint rec ∈ sb
      · simp [specDedupeKeyed, specDedupeKeyless, dedupeAux, hck, hb, ih]
      · simp [specDedupeKeyed, specDedupeKeyless, dedupeAux, hck, hb, ih]

/-- Claim C4: the keyed and keyless uniqueness spaces are independent.  The
deduplicator factors, in either order, into a pass that consults only
canonical keys (passing keyless records through untouched) and a pass that
consults only content fingerprints (passing keyed records through
untouched), so the fate of a keyed record is decided solely by other keyed
records and the fate of a keyless record solely by other keyless records,
even when full contents coincide across the two spaces. -/
theorem dedupe_spaces_independent (rs : List Record) :
    dedupe_records rs = specDedupeKeyless (specDedupeKeyed rs []) [] ∧
    dedupe_records rs = specDedupeKeyed (specDedupeKeyless rs []) [] :=
  ⟨(specKeyless_keyed_eq_dedupeAux rs [] []).symm,
   (specKeyed_keyless_eq_dedupeAux rs [] []).symm⟩

/-- Claim C3, counterexample: the code derives a canonical key from the
`key` field only, never from `id`.  Two records sharing a present, non-empty
`id` field (and no `key` field) but differing in content are both kept —
they are deduplicated by full-content equality, not by the claimed
`id`-derived canonical key, under which the second would have been
dropped. -/
theorem canonical_key_ignores_id_cex :
    rId1.lookup "id" = some (Yaml.str "a") ∧
    rId2.lookup "id" = some (Yaml.str "a") ∧
    rId1 ≠ rId2 ∧
    dedupe_records [rId1, rId2] = [rId1, rId2] ∧
    dedupe_records [rId1, rId2] ≠ [rId1] := by decide

/-- Claim C3, amended: a record's canonical key is derived from its `key`
field alone, when that field is present, a string, and non-empty; the `id`
field is never consulted.  A record with no such `key` field has no
canonical key and is deduplicated by full-content equality instead. -/
theorem canonical_key_from_key_only :
    (∀ r : Record, hasField r "key" = false → canonicalKey r = none) ∧
    (∀ r1 r2 : Record, canonicalKey r1 = none → canonicalKey r2 = none →
        dedupe_records [r1, r2] =
          if sortedFingerprint r1 = sortedFingerprint r2 then [r1] else [r1, r2]) := by
  constructor
  · intro r h
    cases ho : r.lookup "key" with
    | none => simp [canonicalKey, ho]
    | some v => simp [hasField, ho] at h
  · intro r1 r2 h1 h2
    by_cases hb : sortedFingerprint r1 = sortedFingerprint r2
    · simp [dedupe_records, dedupeAux, h1, h2, hb]
    · simp [dedupe_records, dedupeAux, h1, h2, hb, Ne.symm hb]

/-- Witness for the amended C3 theorem: a record carrying only an `id` gets
no canonical key, and two keyless records with different content are both
kept. -/
theorem canonical_key_from_key_only_witness :
    canonicalKey [("id", Yaml.str "a")] = none ∧
    dedupe_records [rN1, rN2] =
      (if sortedFingerprint rN1 = sortedFingerprint rN2 then [rN1] else [rN1, rN2]) :=
  ⟨canonical_key_from_key_only.1 [("id", Yaml.str "a")] (by decide),
   canonical_key_from_key_only.2 rN1 rN2 (by decide) (by decide)⟩

/-- Claim C10: a record whose `key` field is present but empty or not a
string has no canonical key, and it is deduplicated by its sorted-field
content fingerprint in the same uniqueness space as records with no `key`
field at all (a later keyless record with an equal fingerprint is dropped in
favour of any earlier keyless one). -/
theorem empty_or_nonstring_key_is_keyless :
    (∀ (r : Record) (v : Yaml), r.lookup "key" = some v →
        (v = Yaml.str "" ∨ ∀ s : String, v ≠ Yaml.str s) → canonicalKey r = none) ∧
    (∀ r1 r2 : Record, canonicalKey r1 = none → canonicalKey r2 = none →
        sortedFingerprint r1 = sortedFingerprint r2 →
        dedupe_records [r1, r2] = [r1]) := by
  constructor
  · intro r v hv hcase
    rcases hcase with rfl | hns
    · simp [canonicalKey, hv]
    · cases v with
      | str s => exact absurd rfl (hns s)
      | null => simp [canonicalKey, hv]
      | bool b => simp [canonicalKey, hv]
      | int n => simp [canonicalKey, hv]
      | seq xs => simp [canonicalKey, hv]
      | map kvs => simp [canonicalKey, hv]
  · intro r1 r2 h1 h2 hfp
    simp [dedupe_records, dedupeAux, h1, h2, hfp]

/-- Witness for the C10 theorem: an integer-valued `key` yields no canonical
key, and two identical records whose `key` is the empty string collapse to
one through the fingerprint space. -/
theorem empty_or_nonstring_key_is_keyless_witness :
    canonicalKey [("key", Yaml.int 1)] = none ∧
    dedupe_records [[("key", Yaml.str "")], [("key", Yaml.str "")]]
      = [[("key", Yaml.str "")]] :=
  ⟨empty_or_nonstring_key_is_keyless.1 [("key", Yaml.int 1)] (Yaml.int 1) (by decide)
      (Or.inr (fun s h => Yaml.noConfusion h)),
   empty_or_nonstring_key_is_keyless.2 [("key", Yaml.str "")] [("key", Yaml.str "")]
      (by decide) (by decide) rfl⟩

/-- After `setFile`, looking the path up yields the freshly written
contents. -/
theorem setFile_lookup (p : String) (recs : List Record) :
    ∀ files : List (String × List Record),
      (setFile p recs files).lookup p = some recs := by
  intro files
  induction files with
  | nil => simp [setFile, List.lookup]
  | cons qc rest ih =>
    obtain ⟨q, c⟩ := qc
    by_cases hq : q = p
    · simp [setFile, hq, List.lookup]
    · have hpq : (p == q) = false := beq_eq_false_iff_ne.mpr (Ne.symm hq)
      simp only [setFile, if_neg hq, List.lookup, hpq]
      exact ih

/-- `write_yaml_local` on a path with a directory component: the parent
directory is created, the file is overwritten and exactly one physical write
is performed. -/
theorem write_yaml_local_eq (p : String) (recs : List Record) (fs : FS)
    (h : dirname p ≠ "") :
    write_yaml_local p recs fs = Except.ok
      { dirs := if dirname p ∈ fs.dirs then fs.dirs else dirname p :: fs.dirs,
        files := setFile p recs fs.files,
        writes := fs.writes + 1 } := by
  by_cases hd : dirname p ∈ fs.dirs <;>
    simp [write_yaml_local, makedirs, openWriteDump, h, hd, Except.bind]

/-- Claim C1, counterexample: the persisted prior content at `out/a.yml`
already equals the object being written, yet `write_yaml_local` performs a
physical write — and a second identical call performs a second one, so two
calls with the same logical object make two physical writes, not one. -/
theorem write_not_idempotent_cex :
    fsPrior.files.lookup "out/a.yml" = some [rN1] ∧
    (write_yaml_local "out/a.yml" [rN1] fsPrior).map FS.writes = Except.ok 1 ∧
    ((write_yaml_local "out/a.yml" [rN1] fsPrior).bind
        (write_yaml_local "out/a.yml" [rN1])).map FS.writes = Except.ok 2 :=
  ⟨rfl, rfl, rfl⟩

/-- Claim C1, amended: `write_yaml_local` never reads or compares the prior
persisted content; every successful call performs exactly one physical
write, so calling it twice in a row with the same logical object results in
exactly two physical writes. -/
theorem write_yaml_local_always_writes (p : String) (recs : List Record) (fs : FS)
    (h : dirname p ≠ "") :
    (write_yaml_local p recs fs).map FS.writes = Except.ok (fs.writes + 1) ∧
    ((write_yaml_local p recs fs).bind (write_yaml_local p recs)).map FS.writes
      = Except.ok (fs.writes + 2) := by
  rw [write_yaml_local_eq p recs fs h]
  constructor
  · rfl
  · rw [Except.bind, write_yaml_local_eq p recs _ h]
    rfl

/-- Witness for the amended C1 theorem on the filesystem whose prior
artifact already equals the written object. -/
theorem write_yaml_local_always_writes_witness :
    dirname "out/a.yml" ≠ "" ∧
    (write_yaml_local "out/a.yml" [rN1] fsPrior).map FS.writes = Except.ok 1 ∧
    ((write_yaml_local "out/a.yml" [rN1] fsPrior).bind
        (write_yaml_local "out/a.yml" [rN1])).map FS.writes = Except.ok 2 :=
  ⟨by decide, (write_yaml_local_always_writes "out/a.yml" [rN1] fsPrior (by decide)).1,
   (write_yaml_local_always_writes "out/a.yml" [rN1] fsPrior (by decide)).2⟩

/-- Claim C9, counterexample: for a bare filename with no directory
component, `os.path.dirname` yields the empty string and
`os.makedirs("", exist_ok=True)` raises `FileNotFoundError`, so the write
fails rather than succeeding on every target path. -/
theorem write_bare_filename_raises_cex :
    dirname "statuses.yml" = "" ∧
    write_yaml_local "statuses.yml" [rN1] fsEmpty
      = Except.error FsError.fileNotFound :=
  ⟨rfl, rfl⟩

/-- Claim C9, amended: before writing, the writer creates the target path's
parent directories as needed, so for every target path with a non-empty
directory component the write succeeds without raising on a missing
directory; a bare filename, however, makes `os.makedirs` raise on the empty
dirname. -/
theorem write_creates_parent_dirs (p : String) (recs : List Record) (fs : FS)
    (h : dirname p ≠ "") :
    ∃ fs' : FS, write_yaml_local p recs fs = Except.ok fs' ∧
      dirname p ∈ fs'.dirs ∧ fs'.files.lookup p = some recs := by
  refine ⟨_, write_yaml_local_eq p recs fs h, ?_, setFile_lookup p recs fs.files⟩
  by_cases hd : dirname p ∈ fs.dirs
  · simp [hd]
  · simp [hd]

/-- Witness for the amended C9 theorem: writing to `data/out.yml` on an
empty filesystem succeeds, creating the `data` directory. -/
theorem write_creates_parent_dirs_witness :
    dirname "data/out.yml" ≠ "" ∧
    ∃ fs' : FS, write_yaml_local "data/out.yml" [rN1] fsEmpty = Except.ok fs' ∧
      dirname "data/out.yml" ∈ fs'.dirs ∧
      fs'.files.lookup "data/out.yml" = some [rN1] :=
  ⟨by decide, write_creates_parent_dirs "data/out.yml" [rN1] fsEmpty (by decide)⟩
